import Mathlib

/-!
Verification of the traceroute wrapper repository: a shallow embedding of
the line parser in traceroute.py and of the statistics / topology code in
view-results.py, together with theorems checking the specified properties.

Modelling conventions: a Python str is a Lean String (token-level work uses
List Char, matching Python's per-character operations), a Python float is a
Rat (ideal exact arithmetic; the claims under check do not depend on binary
rounding), a Python dict is an insertion-ordered association list, a Python
set is a duplicate-free list in insertion order (the claims under check do
not depend on CPython's hash iteration order), and a Python exception is an
error value of an Except type.
-/

/-! Character-list helpers shared by both scripts. -/

/-- Model of Python str.split(sep) for a one-character separator. -/
def splitOnCharAux (sep : Char) : List Char → List Char → List (List Char)
  | [], acc => [acc.reverse]
  | c :: cs, acc =>
      if c = sep then acc.reverse :: splitOnCharAux sep cs []
      else splitOnCharAux sep cs (c :: acc)

def splitOnChar (sep : Char) (w : List Char) : List (List Char) :=
  splitOnCharAux sep w []

/-- Model of Python str.count(sep) for a one-character argument. -/
def countDot : List Char → Nat
  | [] => 0
  | c :: cs => (if c = '.' then 1 else 0) + countDot cs

/-- Model of Python str.strip() (trim surrounding whitespace). -/
def trimChars (w : List Char) : List Char :=
  ((w.dropWhile Char.isWhitespace).reverse.dropWhile Char.isWhitespace).reverse

/-- Model of Python str.strip("()") (remove surrounding parentheses). -/
def stripParens (w : List Char) : List Char :=
  ((w.dropWhile fun c => c = '(' || c = ')').reverse.dropWhile
      fun c => c = '(' || c = ')').reverse

/-- Model of "needle is a prefix of hay" used by the substring check. -/
def leadsWith : List Char → List Char → Bool
  | [], _ => true
  | _ :: _, [] => false
  | a :: as, b :: bs => a = b && leadsWith as bs

/-- Model of Python "needle in hay" substring membership. -/
def hasSub (needle : List Char) : List Char → Bool
  | [] => leadsWith needle []
  | c :: rest => leadsWith needle (c :: rest) || hasSub needle rest

/-- Model of Python "needle in hay.lower()" as used for the banner and
invalid-argument markers (the needles are already lower-case literals). -/
def hasSubLower (needle : String) (hay : String) : Bool :=
  hasSub needle.data (hay.data.map Char.toLower)

def digitsToNat (ds : List Char) : Nat :=
  ds.foldl (fun a c => a * 10 + (c.toNat - '0'.toNat)) 0

/-- Digit-run parse underlying Python int(); none when empty or non-digit.
(Python 3 additionally accepts underscores between digits and unicode
digits; traceroute output contains neither.) -/
def parseDigitsNat (w : List Char) : Option Nat :=
  if w ≠ [] ∧ w.all Char.isDigit then some (digitsToNat w) else none

/-- Model of Python int(str) on an already-stripped token: optional sign
followed by digits; ValueError is modelled as none. -/
def parseIntChars (w : List Char) : Option Int :=
  match w with
  | [] => none
  | c :: rest =>
      if c = '+' then (parseDigitsNat rest).map Int.ofNat
      else if c = '-' then (parseDigitsNat rest).map fun n => -(Int.ofNat n)
      else (parseDigitsNat (c :: rest)).map Int.ofNat

/-- Model of Python float(str) on finite decimal forms: optional sign,
decimal mantissa (digits, or digits.digits, or .digits, or digits.),
optional e/E exponent.  ValueError is modelled as none.  (Python also
accepts inf/nan spellings and underscores between digits; traceroute
output never contains those tokens, so they are omitted.) -/
def parseMantissa (w : List Char) : Option (Rat × List Char) :=
  let ip := w.takeWhile Char.isDigit
  let rest := w.dropWhile Char.isDigit
  match rest with
  | '.' :: rest2 =>
      let fp := rest2.takeWhile Char.isDigit
      let rest3 := rest2.dropWhile Char.isDigit
      if ip = [] ∧ fp = [] then none
      else some ((digitsToNat ip : Rat) + (digitsToNat fp : Rat) / ((10 : Rat) ^ fp.length), rest3)
  | _ => if ip = [] then none else some ((digitsToNat ip : Rat), rest)

def parseExponent (w : List Char) : Option Int :=
  match w with
  | [] => some 0
  | c :: rest =>
      if c = 'e' ∨ c = 'E' then
        match rest with
        | '+' :: ds => (parseDigitsNat ds).map fun n => (n : Int)
        | '-' :: ds => (parseDigitsNat ds).map fun n => -(n : Int)
        | ds => (parseDigitsNat ds).map fun n => (n : Int)
      else none

def parseFloatChars (w : List Char) : Option Rat :=
  let sgn : Rat × List Char :=
    match w with
    | '+' :: r => (1, r)
    | '-' :: r => (-1, r)
    | r => (1, r)
  match parseMantissa sgn.2 with
  | none => none
  | some (m, rest) => (parseExponent rest).map fun e => sgn.1 * m * (10 : Rat) ^ e

/-! Embedding of traceroute.py. -/

/-- Enum of supported traceroute versions (TracerouteVersion). -/
inductive TracerouteVersion where
  | MODERN
  | INETUTILS
deriving DecidableEq

/-- One parsed hop line, the dict built by parse_line: keys index and
results are always present, ip_address and hostname are optional. -/
structure Hop where
  index : Int
  ip_address : Option (List String)
  hostname : Option String
  results : List Rat
deriving DecidableEq

inductive ParseError where
  /-- words[0] raises IndexError: the line had no tokens. -/
  | emptyLine
  /-- int(words[0]) raises ValueError. -/
  | malformedHopLine
  /-- RuntimeError("Unexpected behaviour - invalid input"): the probe
  accounting did not balance. -/
  | probeCountMismatch
deriving DecidableEq

/-- is_ipv4_format in parse_line: four dot-separated ints each in [0,256). -/
def is_ipv4_format (w : List Char) : Bool :=
  if countDot w ≠ 3 then false
  else (splitOnChar '.' w).all fun p =>
    match parseIntChars p with
    | some n => decide (0 ≤ n) && decide (n < 256)
    | none => false

/-- wrapped_by_brackets in parse_line: word[0] == "(" and word[-1] == ")".
(The words fed to it are non-empty; on [] Python would raise IndexError,
modelled as false since the case is unreachable.) -/
def wrapped_by_brackets (w : List Char) : Bool :=
  match w, w.getLast? with
  | c :: _, some d => c = '(' && d = ')'
  | _, _ => false

/-- is_float in parse_line: float(word) succeeds. -/
def is_float (w : List Char) : Bool :=
  (parseFloatChars w).isSome

/-- word[-2:] == "ms" (for words of length < 2 the Python slice is the
whole word, which cannot equal "ms"). -/
def endsWithMS (w : List Char) : Bool :=
  match w.reverse with
  | s :: m :: _ => s = 's' && m = 'm'
  | _ => false

/-- Per-dialect address predicate chosen in parse_line. -/
def is_ipv4 : TracerouteVersion → List Char → Bool
  | .INETUTILS, w => is_ipv4_format w
  | .MODERN, w => wrapped_by_brackets w && is_ipv4_format ((w.drop 1).dropLast)

/-- Per-dialect time predicate chosen in parse_line. -/
def is_time : TracerouteVersion → List Char → Bool
  | .INETUTILS, w => if endsWithMS w then is_float (w.dropLast.dropLast) else false
  | .MODERN, w => is_float w

/-- Per-dialect hostname predicate chosen in parse_line. -/
def is_hostname : TracerouteVersion → List Char → Bool
  | .INETUTILS, w => wrapped_by_brackets w
  | .MODERN, w => decide (w ≠ ['m', 's'])

/-- Model of Python str.replace("ms", "") (remove every occurrence,
left to right, non-overlapping). -/
def replaceMS : List Char → List Char
  | 'm' :: 's' :: rest => replaceMS rest
  | c :: rest => c :: replaceMS rest
  | [] => []

/-- float(word.replace("ms", "")); only evaluated on words accepted by
is_time, where the parse necessarily succeeds, so the default 0 of getD
is unreachable. -/
def time_value (w : List Char) : Rat :=
  (parseFloatChars (replaceMS w)).getD 0

/-- tokenize: words = [word.strip() for word in line.split(" ") if word.strip()]. -/
def tokenize (line : String) : List (List Char) :=
  ((splitOnChar ' ' line.data).map trimChars).filter fun w => w ≠ []

/-- One iteration of the classification loop in parse_line, carrying the
accumulating record and the running expected_tries counter. -/
def parse_word (v : TracerouteVersion) (st : Hop × Int) (w : List Char) : Hop × Int :=
  if w = ['*'] then (st.1, st.2 - 1)
  else if is_ipv4 v w then
    let cur := st.1.ip_address.getD []
    if String.mk w ∈ cur then ({ st.1 with ip_address := some cur }, st.2)
    else ({ st.1 with ip_address := some (cur ++ [String.mk (stripParens w)]) }, st.2)
  else if is_time v w then
    ({ st.1 with results := st.1.results ++ [time_value w] }, st.2 - 1)
  else if is_hostname v w then
    ({ st.1 with hostname := some (String.mk (stripParens w)) }, st.2)
  else st

/-- Post-processing rule of parse_line: drop the hostname when several
addresses were recorded, or when it equals a recorded address. -/
def postProcess (r : Hop) : Hop :=
  match r.ip_address, r.hostname with
  | some ips, some h =>
      if ips.length > 1 then { r with hostname := none }
      else if h ∈ ips then { r with hostname := none }
      else r
  | _, _ => r

/-- Body of parse_line after the hop index has been read. -/
def parse_tokens (v : TracerouteVersion) (expected_tries : Int) (idx : Int)
    (rest : List (List Char)) : Except ParseError Hop :=
  let st := rest.foldl (parse_word v) (⟨idx, none, none, []⟩, expected_tries)
  let r := postProcess st.1
  if st.2 ≠ 0 then .error .probeCountMismatch else .ok r

/-- parse_line in traceroute.py. -/
def parse_line (v : TracerouteVersion) (line : String) (expected_tries : Int) :
    Except ParseError Hop :=
  match tokenize line with
  | [] => .error .emptyLine
  | w0 :: rest =>
      match parseIntChars w0 with
      | none => .error .malformedHopLine
      | some idx => parse_tokens v expected_tries idx rest

/-- Number of timeout markers among the classified tokens of a line. -/
def countStar : List (List Char) → Nat
  | [] => 0
  | w :: ws => (if w = ['*'] then 1 else 0) + countStar ws

/-- Number of timeout markers parse_line consumes from a line. -/
def countTimeouts (line : String) : Int :=
  match tokenize line with
  | [] => 0
  | _ :: rest => (countStar rest : Int)

/-! Embedding of the statistics code in view-results.py.

get_hostname_entry_delays groups samples by hop index; the table code then
feeds each group to get_stats_from_list, guarded only by Python truthiness
of the group.  The displayed rounding to two decimals and the conversion to
strings are presentation-only and omitted; the exceptions the code can
raise are modelled as none. -/

/-- get_stats_from_list in view-results.py as a partial function:
none models the exceptions escaping it.  On an empty list,
sum(nums)/len(nums) raises ZeroDivisionError; on a one-element list,
statistics.stdev raises StatisticsError (it requires at least two data
points).  The fourth component is the square of the sample standard
deviation (the source applies the square root for display; squaring is
injective on the nonnegative reals, so definedness and zero-ness are
preserved exactly). -/
def get_stats_from_list (nums : List Rat) : Option (Rat × Rat × Rat × Rat) :=
  match nums with
  | [] => none
  | [_] => none
  | x :: xs =>
      let n : Rat := (nums.length : Rat)
      let mean := nums.sum / n
      some (mean, xs.foldl min x, xs.foldl max x,
        (nums.map fun v => (v - mean) ^ 2).sum / (n - 1))

/-- The four statistics cells of one table row: either computed values or
the placeholder row ["-"] * 4. -/
inductive StatsCells where
  | values : Rat → Rat → Rat → Rat → StatsCells
  | dashes : StatsCells
deriving DecidableEq

/-- One row of the statistics table built by graph_table:
stats = get_stats_from_list(delays) if delays else ["-"] * 4.
none models an exception escaping from get_stats_from_list. -/
def graph_table_row (nums : List Rat) : Option StatsCells :=
  if nums = [] then some .dashes
  else (get_stats_from_list nums).map fun s => .values s.1 s.2.1 s.2.2.1 s.2.2.2

/-! Embedding of TracerouteResult.to_json in traceroute.py. -/

/-- JSON values, as produced by to_json and serialized by json.dump.
A Python tuple serializes as a JSON array, so both map to arr. -/
inductive Json where
  | str : String → Json
  | num : Rat → Json
  | arr : List Json → Json
  | obj : List (String × Json) → Json

/-- Serialization of one hop dict inside self._result.  Key order in the
Python dict depends on token order within the line and is irrelevant here
(save_to_file dumps with sort_keys=True); a fixed order is used. -/
def Hop.to_json (h : Hop) : Json :=
  .obj ([("index", .num h.index)]
    ++ [("results", .arr (h.results.map .num))]
    ++ (match h.ip_address with
        | some ips => [("ip_address", .arr (ips.map .str))]
        | none => [])
    ++ (match h.hostname with
        | some s => [("hostname", .str s)]
        | none => []))

/-- The fields of TracerouteResult read by to_json. -/
structure TracerouteResult where
  cmd : String
  description : String
  result : List Hop
  result_timestamp : String
  seconds_taken : Rat

/-- TracerouteResult.to_json.  now is the str(datetime.datetime.now())
read in the no-data branch.  In the data branch the source assignments to
description, timestamp and time_taken_in_secs carry a trailing comma, so
each of those values is a one-element Python tuple, which json.dump
serializes as a one-element array; the data assignment has no trailing
comma and stays a plain list. -/
def TracerouteResult.to_json (t : TracerouteResult) (now : String) : Json :=
  if t.result = [] then
    .obj [("cmd", .str t.cmd), ("data", .str "No data"), ("timestamp", .str now)]
  else
    .obj [("cmd", .str t.cmd),
      ("description", .arr [.str t.description]),
      ("timestamp", .arr [.str t.result_timestamp]),
      ("time_taken_in_secs", .arr [.num t.seconds_taken]),
      ("data", .arr (t.result.map Hop.to_json))]

/-! Embedding of TracerouteResult.run_traceroute_program.

The line source is modelled as a list of (line, cost) pairs: cost is the
wall-clock time the corresponding proc.stdout.readline() takes, and the
clock threaded through the computation advances by that cost at each read;
time.time() reads the current clock.  Reading past the end of the stream
returns "" at no cost (readline at EOF).  t0 is the clock value when the
function starts: the source calls time.time() immediately before reading
the banner line, so start = t0. -/

inductive RunError where
  /-- RuntimeError("Name or Service is not known"). -/
  | unresolvedHost
  /-- ValueError("Invalid Argument"). -/
  | invalidArgument
  /-- An exception escaping parse_line. -/
  | parseFailure : ParseError → RunError
deriving DecidableEq

structure RunOutcome where
  description : String
  hops : List Hop
  result_timestamp : String
  seconds_taken : Rat
deriving DecidableEq

/-- The hop-reading loop; returns the accumulated hops and the clock value
at loop exit (at which the source takes end_time). -/
def run_loop (v : TracerouteVersion) (tries : Int) :
    List (String × Rat) → Rat → List Hop → Except RunError (List Hop × Rat)
  | [], clock, hops => .ok (hops, clock)
  | (line, c) :: rest, clock, hops =>
      let clock := clock + c
      if hasSubLower "invalid argument" line then .error .invalidArgument
      else if line = "" then .ok (hops, clock)
      else
        match parse_line v line tries with
        | .error e => .error (.parseFailure e)
        | .ok h => run_loop v tries rest clock (hops ++ [h])

/-- The banner line and its read cost (("", 0) at end-of-stream). -/
def bannerOf : List (String × Rat) → String × Rat
  | [] => ("", 0)
  | b :: _ => b

def streamRest : List (String × Rat) → List (String × Rat)
  | [] => []
  | _ :: r => r

/-- run_traceroute_program: start = time.time() is taken before the banner
read; the banner is then read and checked for the unresolved-host marker;
the hop loop runs; seconds_taken = end_time - start. -/
def run_traceroute_program (v : TracerouteVersion) (tries : Int)
    (stream : List (String × Rat)) (t0 : Rat) (now : String) :
    Except RunError RunOutcome :=
  let bl := bannerOf stream
  let clock := t0 + bl.2
  if hasSubLower "name or service not known" bl.1 then .error .unresolvedHost
  else
    match run_loop v tries (streamRest stream) clock [] with
    | .error e => .error e
    | .ok (hops, endClock) => .ok ⟨bl.1, hops, now, endClock - t0⟩

/-- The total read cost the hop loop consumes before exiting normally
(mirrors run_loop; on the error paths no outcome is produced and the
value is never used). -/
def consumedCost (v : TracerouteVersion) (tries : Int) : List (String × Rat) → Rat
  | [] => 0
  | (line, c) :: rest =>
      if hasSubLower "invalid argument" line then c
      else if line = "" then c
      else
        match parse_line v line tries with
        | .error _ => c
        | .ok _ => c + consumedCost v tries rest

/-! Embedding of graph_map in view-results.py.

The persisted store read by TracerouteData is modelled as an ordered list
of (target, entries); get_hostnames sorts the targets, so the list is
taken in that order.  An entry whose data field is not a list ("No data"
runs) is modelled as none and skipped by get_entries.  graph_map threads
one mutable edges dict, one ip_to_hosts dict and one temp_count counter
over every entry of every target, and writes synthesized placeholder
address sets back into the store entries it reads. -/

/-- A run object in the store: none models a non-list data field. -/
abbrev Entry := Option (List Hop)

abbrev Store := List (String × List Entry)

inductive GraphError where
  /-- entry["data"][0] on an empty data list raises IndexError. -/
  | indexError
  /-- entry["data"][i-1]["ip_address"] raises KeyError. -/
  | keyError
  /-- int("") inside the local is_ipv4 raises ValueError. -/
  | valueError
deriving DecidableEq

/-- Insertion-ordered dict lookup. -/
def lookupA {α : Type} (k : String) : List (String × α) → Option α
  | [] => none
  | (k', v) :: rest => if k' = k then some v else lookupA k rest

/-- Insertion-ordered dict write: overwrite in place, else append. -/
def updateA {α : Type} (k : String) (v : α) : List (String × α) → List (String × α)
  | [] => [(k, v)]
  | (k', v') :: rest => if k' = k then (k, v) :: rest else (k', v') :: updateA k v rest

/-- The state threaded through graph_map: the edges dict mapping a node to
(its successor set, the placeholder memoized for it), the ip_to_hosts
dict, the temp_count counter, and the graph.edge calls in emission order. -/
structure GraphState where
  edges : List (String × (List String × Option String))
  ip_to_hosts : List (String × String)
  temp_count : Nat
  edgeList : List (String × String)
deriving DecidableEq

def initialGraphState : GraphState := ⟨[], [], 1, []⟩

/-- The synthesized placeholder name f"??? ({n})". -/
def phName (n : Nat) : String := "??? (" ++ Nat.repr n ++ ")"

/-- ip_to_hosts[ip] = name for every ip of the hop (dict overwrite). -/
def record_hosts (name : String) (ips : List String)
    (m : List (String × String)) : List (String × String) :=
  ips.foldl (fun m ip => updateA ip name m) m

/-- Last-hop tagging: keep only currents not already containing <host> and
suffix them with the tag; the Python comprehension builds a set, modelled
as a deduplicated list. -/
def tag_currents (host : String) (currents : List String) : List String :=
  ((currents.filter fun c => !(hasSub ("<" ++ host ++ ">").data c.data)).map
      fun c => c ++ "\n<" ++ host ++ ">").dedup

/-- One step of the innermost loop: add the edge previous -> current
unless current is already in the successor set of previous.  previous was
ensured present in edges before this point; the none arm is unreachable
and returns the state unchanged. -/
def add_one_edge (previous : String) (st : GraphState) (current : String) : GraphState :=
  match lookupA previous st.edges with
  | some (pSet, memo) =>
      if current ∈ pSet then st
      else { st with edges := updateA previous (pSet ++ [current], memo) st.edges,
                     edgeList := st.edgeList ++ [(previous, current)] }
  | none => st

/-- The innermost `for current in currents` loop. -/
def add_current_edges (previous : String) (st : GraphState)
    (currents : List String) : GraphState :=
  currents.foldl (add_one_edge previous) st

/-- Body of the `for previous in entry["data"][i-1]["ip_address"]` loop:
ensure previous is in edges, synthesize or reuse the memoized placeholder
when the current hop has no ip_address (also writing it into the hop),
apply last-hop hostname recording and target tagging, then add edges. -/
def inner_prev_loop (host : String) (isLast : Bool) (st : GraphState)
    (cur : Hop) (previous : String) : GraphState × Hop :=
  let st := if lookupA previous st.edges = none
            then { st with edges := st.edges ++ [(previous, ([], none))] } else st
  let sc : GraphState × Hop :=
    match cur.ip_address with
    | none =>
        match lookupA previous st.edges with
        | some (pSet, none) =>
            let newNode := phName st.temp_count
            ({ st with edges := updateA previous (pSet, some newNode) st.edges,
                       temp_count := st.temp_count + 1 },
             { cur with ip_address := some [newNode] })
        | some (_, some n) => (st, { cur with ip_address := some [n] })
        | none => (st, cur)
    | some _ => (st, cur)
  let st := sc.1
  let cur := sc.2
  let currents := cur.ip_address.getD []
  let stc : GraphState × List String :=
    if isLast then
      let st := match cur.hostname with
        | some name => { st with ip_to_hosts := record_hosts name currents st.ip_to_hosts }
        | none => st
      (st, tag_currents host currents)
    else (st, currents)
  (add_current_edges previous stc.1 stc.2, cur)

/-- Recording of the previous hop's hostname for all its addresses
(no-op when the hop carries no hostname). -/
def host_overlay (hn : Option String) (ips : List String) (st : GraphState) : GraphState :=
  match hn with
  | some hname => { st with ip_to_hosts := record_hosts hname ips st.ip_to_hosts }
  | none => st

/-- Body of the `for i in range(1, len(entry["data"]))` loop for one pair
of consecutive hops.  Reading prev["ip_address"] when absent raises
KeyError (either at the hostname recording or at the previous loop). -/
def pair_body (host : String) (isLast : Bool) (st : GraphState)
    (prev cur : Hop) : Except GraphError (GraphState × Hop) :=
  match prev.ip_address with
  | none => .error .keyError
  | some prevIps =>
      .ok (prevIps.foldl (fun ac p => inner_prev_loop host isLast ac.1 ac.2 p)
        (host_overlay prev.hostname prevIps st, cur))

/-- The hop-pair loop over one entry, threading the mutated hops: prev is
entry["data"][i-1] as possibly rewritten by the previous iteration. -/
def entry_loop (host : String) :
    GraphState → Hop → List Hop → Except GraphError (GraphState × List Hop)
  | st, prev, [] => .ok (st, [prev])
  | st, prev, cur :: rest =>
      match pair_body host (rest = []) st prev cur with
      | .error e => .error e
      | .ok (st', cur') =>
          match entry_loop host st' cur' rest with
          | .error e => .error e
          | .ok (st'', hops') => .ok (st'', prev :: hops')

/-- Processing of one non-empty entry: entry["data"][0] raises IndexError
on an empty data list; a missing first-hop address set is replaced by a
fresh placeholder (fresh per entry), then the pair loop runs. -/
def process_entry (host : String) (st : GraphState) (hops : List Hop) :
    Except GraphError (GraphState × List Hop) :=
  match hops with
  | [] => .error .indexError
  | h0 :: rest =>
      if h0.ip_address = none then
        entry_loop host { st with temp_count := st.temp_count + 1 }
          { h0 with ip_address := some [phName st.temp_count] } rest
      else entry_loop host st h0 rest

/-- Processing of every entry of one target, skipping "No data" entries
(get_entries) and returning the mutated entry list. -/
def process_host (host : String) (st : GraphState) :
    List Entry → Except GraphError (GraphState × List Entry)
  | [] => .ok (st, [])
  | none :: rest =>
      match process_host host st rest with
      | .error e => .error e
      | .ok (st', es) => .ok (st', none :: es)
  | some hops :: rest =>
      match process_entry host st hops with
      | .error e => .error e
      | .ok (st', hops') =>
          match process_host host st' rest with
          | .error e => .error e
          | .ok (st'', es) => .ok (st'', some hops' :: es)

def graph_map_store (st : GraphState) : Store → Except GraphError (GraphState × Store)
  | [] => .ok (st, [])
  | (host, entries) :: rest =>
      match process_host host st entries with
      | .error e => .error e
      | .ok (st', entries') =>
          match graph_map_store st' rest with
          | .error e => .error e
          | .ok (st'', rest') => .ok (st'', (host, entries') :: rest')

/-- graph_map over the whole store (the hostname=None call), returning the
final graph-building state and the store as left behind (graph_map writes
placeholder address sets into the entries it reads). -/
def graph_map (store : Store) : Except GraphError (GraphState × Store) :=
  graph_map_store initialGraphState store

/-- Sequential octet check of the local is_ipv4 in graph_map: the int(num)
calls there are not wrapped in try, so an empty part reached before any
octet >= 256 raises ValueError (modelled as none). -/
def octets_check : List (List Char) → Option Bool
  | [] => some true
  | p :: rest =>
      if p = [] then none
      else if 256 ≤ digitsToNat p then some false
      else octets_check rest

/-- The local is_ipv4 of graph_map: only digits and dots, exactly three
dots, every octet below 256. -/
def graph_is_ipv4 (w : List Char) : Option Bool :=
  if !(w.all fun c => c.isDigit || c = '.') then some false
  else if countDot w ≠ 3 then some false
  else octets_check (splitOnChar '.' w)

/-- The hostname-labelling pass over the emitted graph: a node name that
is an address and has an ip_to_hosts entry is displayed with the hostname
appended on a new line; every other node is left as is. -/
def label_node (m : List (String × String)) (node : String) :
    Except GraphError String :=
  match graph_is_ipv4 node.data with
  | none => .error .valueError
  | some ok_ =>
      if ok_ then
        match lookupA node m with
        | some h => .ok (node ++ "\n" ++ h)
        | none => .ok node
      else .ok node

/-! Concrete inputs used by the theorems below. -/

/-- A concrete completed run for exercising to_json. -/
def trC8 : TracerouteResult :=
  ⟨"traceroute -m 64 --udp -p 33434 -q 3 -w 3 example.com",
   "traceroute to example.com (93.184.216.34), 64 hops max, 60 byte packets",
   [⟨1, some ["10.0.0.1"], none, []⟩],
   "2020-01-01 00:00:00.000000", 2⟩

/-- A first hop with one observed address. -/
def hopA : Hop := ⟨1, some ["10.0.0.1"], none, []⟩

/-- A second hop whose address could not be observed. -/
def hopMissing : Hop := ⟨2, none, none, []⟩

/-- Two runs to different targets, each with the same observed first hop
and an unobserved second hop. -/
def storeC3 : Store := [("h1", [some [hopA, hopMissing]]), ("h2", [some [hopA, hopMissing]])]

/-- Two runs to one target recording conflicting hostnames a and b for the
address 203.0.113.1. -/
def storeC4 (a b : String) : Store :=
  [("t1",
    [some [⟨1, some ["203.0.113.1"], some a, []⟩, ⟨2, some ["198.51.100.1"], none, []⟩],
     some [⟨1, some ["203.0.113.1"], some b, []⟩, ⟨2, some ["198.51.100.1"], none, []⟩]])]

/-- One run with an unobserved second hop. -/
def storeC10 : Store := [("h1", [some [hopA, hopMissing]])]

/-- What graph_map leaves behind of storeC10: the unobserved hop now has
the synthesized placeholder as its address set. -/
def storeC10after : Store :=
  [("h1", [some [hopA, ⟨2, some ["??? (1)"], none, []⟩]])]

/-- One run in which every hop has an observed address. -/
def storePresent : Store := [("h1", [some [hopA, ⟨2, some ["10.0.0.2"], none, []⟩]])]

/-- Address set of hop k of entry j of target i in a store. -/
def ip_at (store : Store) (i j k : Nat) : Option (List String) :=
  match store.get? i with
  | some he =>
      match he.2.get? j with
      | some (some hops) =>
          match hops.get? k with
          | some hp => hp.ip_address
          | none => none
      | _ => none
  | none => none

/-- An entry that graph_map can process without mutating it: either a
"No data" entry, or a non-empty hop list in which every hop already has an
address set. -/
def entry_ok : Entry → Bool
  | none => true
  | some hops => !hops.isEmpty && hops.all fun hp => hp.ip_address.isSome

/-- Every entry of every target of the store satisfies entry_ok. -/
def no_missing (store : Store) : Bool :=
  store.all fun he => he.2.all entry_ok

/-! Helper lemmas about parse_line. -/

theorem postProcess_results (r : Hop) : (postProcess r).results = r.results := by
  unfold postProcess
  split
  · split
    · rfl
    · split <;> rfl
  · rfl

theorem parse_word_accounting (v : TracerouteVersion) (st : Hop × Int) (w : List Char) :
    (parse_word v st w).2 + (if w = ['*'] then 1 else 0)
      + ((parse_word v st w).1.results.length : Int)
    = st.2 + (st.1.results.length : Int) := by
  unfold parse_word
  by_cases hstar : w = ['*']
  · simp [hstar]
  · rw [if_neg hstar, if_neg hstar]
    by_cases hip : is_ipv4 v w = true
    · rw [if_pos hip]
      dsimp only
      by_cases hmem : String.mk w ∈ st.1.ip_address.getD []
      · rw [if_pos hmem]
        simp
      · rw [if_neg hmem]
        simp
    · rw [if_neg hip]
      by_cases hti : is_time v w = true
      · rw [if_pos hti]
        simp
      · rw [if_neg hti]
        by_cases hho : is_hostname v w = true
        · rw [if_pos hho]
          simp
        · rw [if_neg hho]
          simp

theorem parse_fold_accounting (v : TracerouteVersion) (ws : List (List Char)) :
    ∀ st : Hop × Int,
      (ws.foldl (parse_word v) st).2 + (countStar ws : Int)
        + ((ws.foldl (parse_word v) st).1.results.length : Int)
      = st.2 + (st.1.results.length : Int) := by
  induction ws with
  | nil => intro st; simp [countStar]
  | cons w ws ih =>
      intro st
      have h1 := parse_word_accounting v st w
      have h2 := ih (parse_word v st w)
      rw [List.foldl_cons]
      unfold countStar
      by_cases hw : w = ['*']
      · subst hw
        rw [if_pos rfl] at h1 ⊢
        push_cast
        omega
      · rw [if_neg hw] at h1 ⊢
        push_cast
        omega

/-- C1 (confirmed): for every dialect, line and expected_tries, a
successful parse balances the probe accounting: the number of recorded
timing samples plus the number of timeout markers consumed equals
expected_tries; when the running counter is nonzero after the tokens are
consumed, parse_line raises the probe-count mismatch error instead of
returning a record (parse_line only returns Except.ok through the
remaining-equals-zero branch, which this theorem exploits). -/
theorem parse_line_probe_accounting (v : TracerouteVersion) (line : String)
    (tries : Int) (hop : Hop) (h : parse_line v line tries = Except.ok hop) :
    (hop.results.length : Int) + countTimeouts line = tries := by
  unfold parse_line at h
  rcases hws : tokenize line with _ | ⟨w0, rest⟩ <;> rw [hws] at h <;> dsimp only at h
  · simp at h
  · have hct : countTimeouts line = (countStar rest : Int) := by
      unfold countTimeouts
      rw [hws]
    rcases hidx : parseIntChars w0 with _ | idx <;> rw [hidx] at h <;> dsimp only at h
    · simp at h
    · unfold parse_tokens at h
      dsimp only at h
      by_cases hrem : (rest.foldl (parse_word v) (⟨idx, none, none, []⟩, tries)).2 = 0
      · rw [if_neg (by simpa using hrem)] at h
        have hfold := parse_fold_accounting v rest (⟨idx, none, none, []⟩, tries)
        simp only [Except.ok.injEq] at h
        subst h
        rw [hct, postProcess_results]
        simp only [List.length_nil, Nat.cast_zero, add_zero] at hfold
        omega
      · rw [if_pos (by simpa using hrem)] at h
        simp at h

/-- Witness for C1 at a concrete input. -/
theorem parse_line_probe_accounting_witness :
    (((Hop.mk 1 none none []).results.length : Int) + countTimeouts "1 *" = 1)
      ∧ parse_line .MODERN "1 *" 1 = Except.ok (Hop.mk 1 none none []) :=
  ⟨parse_line_probe_accounting .MODERN "1 *" 1 (Hop.mk 1 none none []) rfl, rfl⟩

theorem time_value_11_2 : time_value ['1', '1', '.', '2'] = 11.2 := by
  rw [show time_value ['1', '1', '.', '2']
      = (1 : Rat) * (((11 : Nat) : Rat) + ((2 : Nat) : Rat) / (10 : Rat) ^ (1 : Nat))
          * (10 : Rat) ^ (0 : Int) from rfl]
  norm_num

theorem time_value_12_0 : time_value ['1', '2', '.', '0'] = 12 := by
  rw [show time_value ['1', '2', '.', '0']
      = (1 : Rat) * (((12 : Nat) : Rat) + ((0 : Nat) : Rat) / (10 : Rat) ^ (1 : Nat))
          * (10 : Rat) ^ (0 : Int) from rfl]
  norm_num

theorem time_value_5_0 : time_value ['5', '.', '0'] = 5 := by
  rw [show time_value ['5', '.', '0']
      = (1 : Rat) * (((5 : Nat) : Rat) + ((0 : Nat) : Rat) / (10 : Rat) ^ (1 : Nat))
          * (10 : Rat) ^ (0 : Int) from rfl]
  norm_num

theorem time_value_3ms : time_value ['3', 'm', 's'] = 3 := by
  rw [show time_value ['3', 'm', 's']
      = (1 : Rat) * ((3 : Nat) : Rat) * (10 : Rat) ^ (0 : Int) from rfl]
  norm_num

/-- C2 (confirmed): under the address-in-parens dialect (MODERN) with
expected_tries = 3, the documented hostname-ambiguity line parses to
index 3, the single address 93.184.216.34, samples [11.2, 12.0] in probe
order, one timeout consumed, and no hostname: the bare name token equals
the sole recorded address and is dropped by the post-processing rule. -/
theorem parse_line_dialectA_hostname_ambiguity :
    parse_line .MODERN "3 (93.184.216.34) 93.184.216.34 11.2 ms 12.0 ms *" 3
        = Except.ok ⟨3, some ["93.184.216.34"], none, [11.2, 12]⟩
      ∧ countTimeouts "3 (93.184.216.34) 93.184.216.34 11.2 ms 12.0 ms *" = 1 := by
  constructor
  · rw [show parse_line .MODERN "3 (93.184.216.34) 93.184.216.34 11.2 ms 12.0 ms *" 3
        = Except.ok ⟨3, some ["93.184.216.34"], none,
            [time_value ['1', '1', '.', '2'], time_value ['1', '2', '.', '0']]⟩ from rfl,
      time_value_11_2, time_value_12_0]
  · rfl

/-- C6 (code_bug): the membership test guarding address insertion compares
the raw token (with parentheses) against the stored stripped addresses, so
under the address-in-parens dialect it never fires and the same address
written twice is stored twice; the claimed set behaviour fails.  This
theorem evaluates parse_line at the failing input. -/
theorem parse_line_duplicate_address_dialectA :
    parse_line .MODERN "1 (1.2.3.4) (1.2.3.4) 5.0" 1
      = Except.ok ⟨1, some ["1.2.3.4", "1.2.3.4"], none, [5]⟩ := by
  rw [show parse_line .MODERN "1 (1.2.3.4) (1.2.3.4) 5.0" 1
      = Except.ok ⟨1, some ["1.2.3.4", "1.2.3.4"], none, [time_value ['5', '.', '0']]⟩ from rfl,
    time_value_5_0]

/-- C7 counterexample: under the name-in-parens dialect (INETUTILS) a
parenthesized token whose interior is the valid dotted-quad 9.9.9.9 is
classified as a name (the dialect-B name predicate checks only the
wrapping) and sets the hostname, contradicting the claim that such a
token never does. -/
theorem parse_line_inetutils_paren_quad_sets_hostname :
    parse_line .INETUTILS "1 (9.9.9.9) 3ms" 1
      = Except.ok ⟨1, none, some "9.9.9.9", [3]⟩ := by
  rw [show parse_line .INETUTILS "1 (9.9.9.9) 3ms" 1
      = Except.ok ⟨1, none, some "9.9.9.9", [time_value ['3', 'm', 's']]⟩ from rfl,
    time_value_3ms]

/-! Helper lemmas for the dialect-B token classifier. -/

theorem parseIntChars_paren (t : List Char) : parseIntChars ('(' :: t) = none := by
  unfold parseIntChars
  dsimp only
  rw [if_neg (by decide), if_neg (by decide)]
  unfold parseDigitsNat
  rw [if_neg]
  · rfl
  · rintro ⟨-, hall⟩
    rw [List.all_cons] at hall
    rw [show Char.isDigit '(' = false from by decide] at hall
    simp at hall

theorem splitOnCharAux_shift (sep : Char) (cs : List Char) :
    ∀ acc : List Char, splitOnCharAux sep cs acc
      = (acc.reverse ++ (splitOnCharAux sep cs []).headI)
          :: (splitOnCharAux sep cs []).tail := by
  induction cs with
  | nil => intro acc; simp [splitOnCharAux]
  | cons c cs ih =>
      intro acc
      by_cases hc : c = sep
      · simp [splitOnCharAux, hc]
      · rw [show splitOnCharAux sep (c :: cs) acc = splitOnCharAux sep cs (c :: acc) from by
          rw [splitOnCharAux]; rw [if_neg hc]]
        rw [show splitOnCharAux sep (c :: cs) [] = splitOnCharAux sep cs [c] from by
          rw [splitOnCharAux]; rw [if_neg hc]]
        rw [ih (c :: acc), ih [c]]
        simp

theorem is_ipv4_format_paren (cs : List Char) : is_ipv4_format ('(' :: cs) = false := by
  unfold is_ipv4_format
  by_cases hc : countDot ('(' :: cs) ≠ 3
  · rw [if_pos hc]
  · rw [if_neg hc]
    have hsplit : splitOnChar '.' ('(' :: cs)
        = ('(' :: (splitOnCharAux '.' cs []).headI) :: (splitOnCharAux '.' cs []).tail := by
      unfold splitOnChar
      rw [show splitOnCharAux '.' ('(' :: cs) [] = splitOnCharAux '.' cs ['('] from by
        rw [splitOnCharAux]; rw [if_neg (by decide)]]
      simpa using splitOnCharAux_shift '.' cs ['(']
    rw [hsplit]
    simp [parseIntChars_paren]

theorem endsWithMS_of_last_paren (w : List Char) (h : w.getLast? = some ')') :
    endsWithMS w = false := by
  unfold endsWithMS
  rcases hrev : w.reverse with _ | ⟨c, t⟩
  · rfl
  · have hw : w = t.reverse ++ [c] := by
      rw [← List.reverse_reverse w, hrev]
      simp
    rw [hw] at h
    simp only [List.getLast?_concat, Option.some.injEq] at h
    subst h
    rcases t with _ | ⟨m, t'⟩ <;> simp

/-- C7 amended: under the name-in-parens dialect, a token wrapped in
parentheses that is not the timeout marker is always classified as a
name, regardless of whether its interior is a dotted-quad address: the
classification loop sets the hostname to the interior of the token and
leaves the rest of the accumulating state unchanged. -/
theorem parse_word_inetutils_wrapped_name (st : Hop × Int) (w : List Char)
    (h1 : w.head? = some '(') (h2 : w.getLast? = some ')') (h3 : w ≠ ['*']) :
    parse_word .INETUTILS st w
      = ({ st.1 with hostname := some (String.mk (stripParens w)) }, st.2) := by
  rcases w with _ | ⟨c, t⟩
  · simp at h1
  · have hc : c = '(' := by simpa using h1
    subst hc
    have hi4 : is_ipv4 .INETUTILS ('(' :: t) = false := by
      simpa [is_ipv4] using is_ipv4_format_paren t
    have hti : is_time .INETUTILS ('(' :: t) = false := by
      simp [is_time, endsWithMS_of_last_paren _ h2]
    have hho : is_hostname .INETUTILS ('(' :: t) = true := by
      simp only [is_hostname]
      unfold wrapped_by_brackets
      rw [h2]
      rfl
    unfold parse_word
    rw [if_neg h3, if_neg (by simp [hi4]), if_neg (by simp [hti]), if_pos (by simp [hho])]

/-- Witness for the C7 amended theorem at a concrete input. -/
theorem parse_word_inetutils_wrapped_name_witness :
    (['(', '9', '.', '9', '.', '9', '.', '9', ')'].head? = some '(')
      ∧ (['(', '9', '.', '9', '.', '9', '.', '9', ')'].getLast? = some ')')
      ∧ (['(', '9', '.', '9', '.', '9', '.', '9', ')'] ≠ ['*'])
      ∧ parse_word .INETUTILS (Hop.mk 1 none none [], 1)
          ['(', '9', '.', '9', '.', '9', '.', '9', ')']
        = ({ Hop.mk 1 none none [] with
              hostname := some (String.mk
                (stripParens ['(', '9', '.', '9', '.', '9', '.', '9', ')'])) }, 1) :=
  ⟨by decide, by decide, by decide,
    parse_word_inetutils_wrapped_name (Hop.mk 1 none none [], 1)
      ['(', '9', '.', '9', '.', '9', '.', '9', ')'] (by decide) (by decide) (by decide)⟩

/-- C5 counterexample: the statistics row for a hop group with exactly one
sample is not a placeholder row: statistics.stdev raises on it, so the
table computation raises instead of rendering anything, refuting the claim
that groups of fewer than two samples are reported as placeholders. -/
theorem graph_table_row_single_sample : graph_table_row [5] = none := rfl

/-- C5 amended: the per-hop table row computation raises exactly on groups
with one sample: empty groups are rendered as the placeholder row (guarded
by Python truthiness), groups of two or more samples get a computed row,
and a one-sample group reaches statistics.stdev, which raises. -/
theorem graph_table_row_none_iff (nums : List Rat) :
    graph_table_row nums = none ↔ nums.length = 1 := by
  rcases nums with _ | ⟨x, _ | ⟨y, t⟩⟩ <;>
    simp [graph_table_row, get_stats_from_list]

/-- C8 (code_bug): in the serialized run object the description, timestamp
and time_taken_in_secs fields are one-element arrays, not the scalar
values: the source assignments end with a trailing comma, so each value is
a one-element Python tuple (the no-data branch writes timestamp as a plain
string, showing the intended shape).  This theorem evaluates to_json on a
run with one parsed hop. -/
theorem to_json_wraps_scalar_fields :
    trC8.to_json "unused"
      = Json.obj
          [("cmd", Json.str "traceroute -m 64 --udp -p 33434 -q 3 -w 3 example.com"),
           ("description", Json.arr
              [Json.str "traceroute to example.com (93.184.216.34), 64 hops max, 60 byte packets"]),
           ("timestamp", Json.arr [Json.str "2020-01-01 00:00:00.000000"]),
           ("time_taken_in_secs", Json.arr [Json.num 2]),
           ("data", Json.arr [Json.obj
              [("index", Json.num ((1 : Int) : Rat)),
               ("results", Json.arr []),
               ("ip_address", Json.arr [Json.str "10.0.0.1"])]])] := rfl

/-! Helper lemma for the run duration. -/

theorem run_loop_clock (v : TracerouteVersion) (tries : Int) (ls : List (String × Rat)) :
    ∀ (clock : Rat) (hops h' : List Hop) (c' : Rat),
      run_loop v tries ls clock hops = .ok (h', c') →
      c' = clock + consumedCost v tries ls := by
  induction ls with
  | nil =>
      intro clock hops h' c' h
      simp only [run_loop, Except.ok.injEq, Prod.mk.injEq] at h
      rw [← h.2]
      simp [consumedCost]
  | cons lc rest ih =>
      obtain ⟨line, c⟩ := lc
      intro clock hops h' c' h
      unfold run_loop at h
      try dsimp only at h
      unfold consumedCost
      try dsimp only
      by_cases hinv : hasSubLower "invalid argument" line = true
      · rw [if_pos hinv] at h
        simp at h
      · rw [if_neg hinv] at h
        rw [if_neg hinv]
        by_cases hemp : line = ""
        · rw [if_pos hemp] at h
          rw [if_pos hemp]
          simp only [Except.ok.injEq, Prod.mk.injEq] at h
          rw [← h.2]
        · rw [if_neg hemp] at h
          rw [if_neg hemp]
          rcases hp : parse_line v line tries with e | hop <;> rw [hp] at h <;> dsimp only at h
          · simp at h
          · rw [ih _ _ _ _ h]
            ring

/-- C9 counterexample: a run whose banner read costs 5 time units and that
produces no hop lines records seconds_taken = 5, not 0: the start
timestamp is taken before the banner line is read, so the banner read is
included in the recorded duration, contradicting the claim that it is
excluded. -/
theorem run_duration_includes_banner_read :
    run_traceroute_program .MODERN 3 [("traceroute to example.com", 5)] 0 "ts"
        = Except.ok ⟨"traceroute to example.com", [], "ts", 5⟩
      ∧ (5 : Rat) ≠ 0 := by
  constructor
  · rw [show run_traceroute_program .MODERN 3 [("traceroute to example.com", 5)] 0 "ts"
        = Except.ok ⟨"traceroute to example.com", [], "ts", 0 + 5 - 0⟩ from rfl]
    norm_num
  · norm_num

/-- C9 amended: the recorded duration covers the banner read as well as
the hop-reading loop: start = time.time() runs before the banner line is
read, so for every completed run seconds_taken equals the banner read cost
plus the cost the hop loop consumed. -/
theorem run_duration_banner_plus_loop (v : TracerouteVersion) (tries : Int)
    (stream : List (String × Rat)) (t0 : Rat) (now : String) (out : RunOutcome)
    (h : run_traceroute_program v tries stream t0 now = Except.ok out) :
    out.seconds_taken
      = (bannerOf stream).2 + consumedCost v tries (streamRest stream) := by
  unfold run_traceroute_program at h
  dsimp only at h
  by_cases hb : hasSubLower "name or service not known" (bannerOf stream).1 = true
  · rw [if_pos hb] at h
    simp at h
  · rw [if_neg hb] at h
    rcases hrl : run_loop v tries (streamRest stream) (t0 + (bannerOf stream).2) []
        with e | ⟨hops, endClock⟩ <;> rw [hrl] at h <;> dsimp only at h
    · simp at h
    · simp only [Except.ok.injEq] at h
      subst h
      dsimp only
      rw [run_loop_clock v tries (streamRest stream) _ _ _ _ hrl]
      ring

/-- Witness for the C9 amended theorem at a concrete input. -/
theorem run_duration_banner_plus_loop_witness :
    (run_traceroute_program .MODERN 3 [("probe banner", 5), ("", 2)] 0 "n"
        = Except.ok ⟨"probe banner", [], "n", 0 + 5 + 2 - 0⟩)
      ∧ RunOutcome.seconds_taken ⟨"probe banner", [], "n", 0 + 5 + 2 - 0⟩
          = (bannerOf [("probe banner", 5), ("", 2)]).2
            + consumedCost .MODERN 3 (streamRest [("probe banner", 5), ("", 2)]) :=
  ⟨rfl, run_duration_banner_plus_loop .MODERN 3 [("probe banner", 5), ("", 2)] 0 "n"
    ⟨"probe banner", [], "n", 0 + 5 + 2 - 0⟩ rfl⟩

/-! Theorems about graph_map. -/

/-- C3 counterexample: merging two runs (to targets h1 and h2) that share
the observed predecessor 10.0.0.1 followed by an unobserved hop assigns
the SAME placeholder node "??? (1)" to both runs: the placeholder memoized
for the predecessor in the first run is reused by the second run,
refuting the claim that each run receives its own fresh placeholder. -/
theorem graph_map_placeholder_shared_across_runs :
    (graph_map storeC3).map (fun r => (ip_at r.2 0 0 1, ip_at r.2 1 0 1))
      = Except.ok (some ["??? (1)"], some ["??? (1)"]) := rfl

theorem add_one_edge_temp_count (p : String) (st : GraphState) (c : String) :
    (add_one_edge p st c).temp_count = st.temp_count := by
  unfold add_one_edge
  rcases hlk : lookupA p st.edges with - | ⟨pSet, memo⟩
  · rfl
  · dsimp only
    split <;> rfl

theorem add_current_edges_temp_count (p : String) (cs : List String) :
    ∀ st : GraphState, (add_current_edges p st cs).temp_count = st.temp_count := by
  induction cs with
  | nil => intro st; rfl
  | cons c cs ih =>
      intro st
      rw [show add_current_edges p st (c :: cs)
          = add_current_edges p (add_one_edge p st c) cs from rfl]
      rw [ih, add_one_edge_temp_count]

/-- C3 amended: placeholders for unobserved non-first hops are memoized
per predecessor address in the single edges map threaded over the whole
merge, not per run: whenever the map already holds a memoized placeholder
n for predecessor p, a hop without addresses that follows p — in whatever
run, including a later one — is assigned exactly [n] again, and no fresh
placeholder is allocated (temp_count does not move).  Only the first-hop
placeholder of step 1 is fresh per run. -/
theorem inner_prev_loop_memoized_placeholder_reuse (host : String) (isLast : Bool)
    (st : GraphState) (cur : Hop) (p : String) (s0 : List String) (n : String)
    (h1 : cur.ip_address = none) (h2 : lookupA p st.edges = some (s0, some n)) :
    (inner_prev_loop host isLast st cur p).2.ip_address = some [n]
      ∧ (inner_prev_loop host isLast st cur p).1.temp_count = st.temp_count := by
  constructor
  · simp [inner_prev_loop, h1, h2]
  · cases isLast
    · simp [inner_prev_loop, h1, h2, add_current_edges_temp_count]
    · rcases hh : cur.hostname with - | nm <;>
        simp [inner_prev_loop, h1, h2, hh, host_overlay, add_current_edges_temp_count]

/-- Witness for the C3 amended theorem at a concrete input. -/
theorem inner_prev_loop_memoized_placeholder_reuse_witness :
    ((Hop.mk 2 none none []).ip_address = none)
      ∧ (lookupA "10.0.0.1"
          (GraphState.mk [("10.0.0.1", ([], some "??? (9)"))] [] 5 []).edges
          = some ([], some "??? (9)"))
      ∧ (inner_prev_loop "hX" true
            (GraphState.mk [("10.0.0.1", ([], some "??? (9)"))] [] 5 [])
            (Hop.mk 2 none none []) "10.0.0.1").2.ip_address = some ["??? (9)"]
      ∧ (inner_prev_loop "hX" true
            (GraphState.mk [("10.0.0.1", ([], some "??? (9)"))] [] 5 [])
            (Hop.mk 2 none none []) "10.0.0.1").1.temp_count = 5 :=
  ⟨rfl, rfl,
    (inner_prev_loop_memoized_placeholder_reuse "hX" true
      (GraphState.mk [("10.0.0.1", ([], some "??? (9)"))] [] 5 [])
      (Hop.mk 2 none none []) "10.0.0.1" [] "??? (9)" rfl rfl).1,
    (inner_prev_loop_memoized_placeholder_reuse "hX" true
      (GraphState.mk [("10.0.0.1", ([], some "??? (9)"))] [] 5 [])
      (Hop.mk 2 none none []) "10.0.0.1" [] "??? (9)" rfl rfl).2⟩

/-- C4 counterexample: with address 203.0.113.1 recorded under hostname
a.example in one run and b.example in a later run, the merged graph does
NOT leave the node unlabelled: the labelling pass displays it as
"203.0.113.1\nb.example", refuting the exactly-one-hostname rule. -/
theorem graph_map_label_conflict_not_unlabelled :
    (graph_map (storeC4 "a.example" "b.example")).map
        (fun r => label_node r.1.ip_to_hosts "203.0.113.1")
      = Except.ok (Except.ok "203.0.113.1\nb.example") := rfl

/-- C4 amended: conflicting hostnames for one address do not unlabel the
node; the ip_to_hosts dict is written with plain overwrite, so the node is
labelled with whichever hostname the most recently processed run recorded
(last write wins), here the second run's hostname b. -/
theorem graph_map_conflicting_hostname_last_wins (a b : String) :
    (graph_map (storeC4 a b)).map
        (fun r => (lookupA "203.0.113.1" r.1.ip_to_hosts,
                   label_node r.1.ip_to_hosts "203.0.113.1"))
      = Except.ok (some b, Except.ok ("203.0.113.1" ++ "\n" ++ b)) := rfl

/-- C10 counterexample: building the graph over a store containing a run
with an unobserved hop changes the store: the hop's missing address set is
replaced by the synthesized placeholder, so a second invocation does not
observe the same inputs as the first, refuting the frame claim. -/
theorem graph_map_mutates_store :
    (graph_map storeC10).map Prod.snd = Except.ok storeC10after
      ∧ storeC10after ≠ storeC10 :=
  ⟨rfl, by decide⟩

/-! Preservation of the store by graph_map when no hop lacks an address. -/

theorem inner_prev_loop_keeps_cur (host : String) (isLast : Bool) (st : GraphState)
    (cur : Hop) (p : String) (v : List String) (hip : cur.ip_address = some v) :
    (inner_prev_loop host isLast st cur p).2 = cur := by
  simp [inner_prev_loop, hip]

theorem prev_fold_keeps_cur (host : String) (isLast : Bool) (ps : List String) :
    ∀ (st : GraphState) (cur : Hop) (v : List String), cur.ip_address = some v →
      (ps.foldl (fun ac p => inner_prev_loop host isLast ac.1 ac.2 p) (st, cur)).2 = cur := by
  induction ps with
  | nil => intro st cur v hip; rfl
  | cons p ps ih =>
      intro st cur v hip
      rw [List.foldl_cons]
      dsimp only
      have hkeep := inner_prev_loop_keeps_cur host isLast st cur p v hip
      rcases hX : inner_prev_loop host isLast st cur p with ⟨st2, cur2⟩
      rw [hX] at hkeep
      dsimp only at hkeep
      rw [hkeep]
      exact ih st2 cur v hip

theorem pair_body_keeps_cur (host : String) (isLast : Bool) (st : GraphState)
    (prev cur : Hop) (ips v : List String)
    (hprev : prev.ip_address = some ips) (hcur : cur.ip_address = some v) :
    ∃ st', pair_body host isLast st prev cur = .ok (st', cur) := by
  unfold pair_body
  rw [hprev]
  dsimp only
  have hkeep := prev_fold_keeps_cur host isLast ips (host_overlay prev.hostname ips st)
    cur v hcur
  rcases hX : ips.foldl (fun ac p => inner_prev_loop host isLast ac.1 ac.2 p)
      (host_overlay prev.hostname ips st, cur) with ⟨st2, cur2⟩
  rw [hX] at hkeep
  dsimp only at hkeep
  rw [hkeep]
  exact ⟨st2, rfl⟩

theorem entry_loop_keeps_hops (host : String) (rest : List Hop) :
    ∀ (st : GraphState) (prev : Hop),
      (∀ hp ∈ prev :: rest, hp.ip_address.isSome) →
      (entry_loop host st prev rest).map Prod.snd = .ok (prev :: rest) := by
  induction rest with
  | nil => intro st prev h; rfl
  | cons cur rest' ih =>
      intro st prev h
      have hprev := h prev (by simp)
      have hcur := h cur (by simp)
      rcases hp : prev.ip_address with - | ips
      · rw [hp] at hprev; simp at hprev
      · rcases hc : cur.ip_address with - | v
        · rw [hc] at hcur; simp at hcur
        · obtain ⟨st', hpb⟩ := pair_body_keeps_cur host (rest' = []) st prev cur ips v hp hc
          unfold entry_loop
          rw [hpb]
          dsimp only
          have hrec := ih st' cur fun hp' hmem => h hp' (List.mem_cons_of_mem _ hmem)
          rcases hres : entry_loop host st' cur rest' with e | ⟨st'', hops'⟩ <;>
            rw [hres] at hrec
          · simp [Except.map] at hrec
          · simp [Except.map] at hrec
            simp [Except.map, hrec]

theorem process_entry_keeps_hops (host : String) (st : GraphState) (hops : List Hop)
    (hne : hops ≠ []) (hall : ∀ hp ∈ hops, hp.ip_address.isSome) :
    (process_entry host st hops).map Prod.snd = .ok hops := by
  rcases hops with - | ⟨h0, rest⟩
  · exact absurd rfl hne
  · have h0some := hall h0 (by simp)
    unfold process_entry
    dsimp only
    rw [if_neg (Option.isSome_iff_ne_none.mp h0some)]
    exact entry_loop_keeps_hops host rest st h0 hall

theorem process_host_keeps (host : String) (entries : List Entry) :
    ∀ st : GraphState, (∀ e ∈ entries, entry_ok e = true) →
      (process_host host st entries).map Prod.snd = .ok entries := by
  induction entries with
  | nil => intro st h; rfl
  | cons e rest ih =>
      intro st h
      rcases e with - | hops
      · unfold process_host
        have hrec := ih st fun e' hm => h e' (List.mem_cons_of_mem _ hm)
        rcases hres : process_host host st rest with er | ⟨st', es⟩ <;> rw [hres] at hrec
        · simp [Except.map] at hrec
        · simp [Except.map] at hrec
          simp [Except.map, hrec]
      · have hok := h (some hops) (by simp)
        simp only [entry_ok, Bool.and_eq_true, Bool.not_eq_eq_eq_not, Bool.not_true,
          List.all_eq_true] at hok
        have hne : hops ≠ [] := by
          intro hnil
          rw [hnil] at hok
          simp at hok
        have hall : ∀ hp ∈ hops, hp.ip_address.isSome := fun hp hm => hok.2 hp hm
        have hpe := process_entry_keeps_hops host st hops hne hall
        rcases hres : process_entry host st hops with er | ⟨st', hops'⟩ <;> rw [hres] at hpe
        · simp [Except.map] at hpe
        · simp [Except.map] at hpe
          unfold process_host
          rw [hres]
          dsimp only
          have hrec := ih st' fun e' hm => h e' (List.mem_cons_of_mem _ hm)
          rcases hres2 : process_host host st' rest with er2 | ⟨st'', es⟩ <;>
            rw [hres2] at hrec
          · simp [Except.map] at hrec
          · simp [Except.map] at hrec
            simp [Except.map, hpe, hrec]

theorem graph_map_store_keeps (store : Store) :
    ∀ st : GraphState, (∀ he ∈ store, ∀ e ∈ he.2, entry_ok e = true) →
      (graph_map_store st store).map Prod.snd = .ok store := by
  induction store with
  | nil => intro st h; rfl
  | cons he rest ih =>
      obtain ⟨host, entries⟩ := he
      intro st h
      have h1 := process_host_keeps host entries st
        (fun e he' => h (host, entries) (by simp) e he')
      rcases hres : process_host host st entries with er | ⟨st', es⟩ <;> rw [hres] at h1
      · simp [Except.map] at h1
      · simp [Except.map] at h1
        unfold graph_map_store
        rw [hres]
        dsimp only
        have h2 := ih st' fun he' hm e he'' => h he' (List.mem_cons_of_mem _ hm) e he''
        rcases hres2 : graph_map_store st' rest with er2 | ⟨st'', rest'⟩ <;>
          rw [hres2] at h2
        · simp [Except.map] at h2
        · simp [Except.map] at h2
          simp [Except.map, h1, h2]

/-- C10 amended: graph_map mutates the store it reads exactly at hops
lacking an address set (there it writes the synthesized placeholder); when
every processed entry is either "No data" or a non-empty hop list in which
every hop already carries an address set, the store graph_map leaves
behind is identical to the one it was given, so a second invocation
observes the same inputs. -/
theorem graph_map_preserves_present_store (store : Store)
    (h : no_missing store = true) :
    (graph_map store).map Prod.snd = Except.ok store := by
  apply graph_map_store_keeps
  intro he hm e hme
  rw [no_missing, List.all_eq_true] at h
  have h' := h he hm
  rw [List.all_eq_true] at h'
  exact h' e hme

/-- Witness for the C10 amended theorem at a concrete store. -/
theorem graph_map_preserves_present_store_witness :
    (no_missing storePresent = true)
      ∧ (graph_map storePresent).map Prod.snd = Except.ok storePresent :=
  ⟨by decide, graph_map_preserves_present_store storePresent (by decide)⟩
